import Mathlib

/-!
Shallow embedding of the invoice-app offline database layer
(`src/database/{db,clients,estimates,invoices,sync,schema}.js` and
`src/config/business.js`).

JavaScript numbers are modelled as exact rationals (`ℚ`); `Math.round` is
modelled as `⌊x + 1/2⌋`, its exact behaviour on finite values.  Each
IndexedDB object store is modelled as a list of records whose key field
(the store's `keyPath`) is expected to be duplicate-free; `store.get`,
`store.getAll`, `store.add`, `store.put`, `store.delete` and
`store.clear` are modelled by the corresponding list operations.
Operations that `throw` return `Except JsErr`; a thrown error leaves the
database unchanged, which the embedding reflects by returning no new
database in the error case.
-/

namespace InvoiceApp

/-- A thrown JavaScript error, carrying `error.name` and `error.message`
(the sync engine branches on `error.name === 'ConstraintError'`). -/
structure JsErr where
  name : String
  message : String
deriving DecidableEq, Repr

/-- A line item `\x7b description, quantity, price \x7d` as stored in
estimate and invoice records. -/
structure Item where
  description : String
  quantity : ℚ
  price : ℚ
deriving DecidableEq, Repr

/-- `Math.round` on exact rationals: round to nearest, ties toward `+∞`. -/
def jsRound (x : ℚ) : ℤ := ⌊x + 1/2⌋

/-- `Math.round(x * 100) / 100` — rounding to 2 decimal places, the
idiom used by `calculateInvoiceTotals` in `src/database/invoices.js`. -/
def round2 (x : ℚ) : ℚ := (jsRound (x * 100) : ℚ) / 100

/-- `calculateTotal` from `src/database/estimates.js`:
`items.reduce((sum, item) => sum + item.quantity * item.price, 0)` —
a plain sum, with no rounding applied. -/
def calculateTotal (items : List Item) : ℚ :=
  items.foldl (fun sum item => sum + item.quantity * item.price) 0

/-- `BUSINESS_INFO.salesTaxRate` from `src/config/business.js` (0.06). -/
def salesTaxRate : ℚ := 6/100

/-- Result record of `calculateInvoiceTotals`. -/
structure InvoiceTotals where
  subtotal : ℚ
  taxRate : ℚ
  taxAmount : ℚ
  total : ℚ
deriving DecidableEq, Repr

/-- `calculateInvoiceTotals` from `src/database/invoices.js`: sums the
raw subtotal, applies `BUSINESS_INFO.salesTaxRate || 0`, and rounds
subtotal, tax amount and total to 2 decimals on return.  The tax amount
and total are computed from the unrounded subtotal. -/
def calculateInvoiceTotals (items : List Item) : InvoiceTotals :=
  let subtotal := items.foldl (fun sum item => sum + item.quantity * item.price) 0
  let taxRate := if salesTaxRate = 0 then 0 else salesTaxRate
  let taxAmount := subtotal * taxRate
  let total := subtotal + taxAmount
  { subtotal := round2 subtotal
    taxRate := taxRate
    taxAmount := round2 taxAmount
    total := round2 total }

/-! ### Records (`SCHEMA` in `src/database/schema.js`) -/

/-- A client record.  `createClient` sets exactly these fields; clients
carry no creation timestamp. -/
structure Client where
  clientId : String
  name : String
  phone : String
  email : String
  address : String
deriving DecidableEq, Repr

/-- An estimate record as built by `createEstimate`. -/
structure Estimate where
  estimateId : String
  clientId : String
  items : List Item
  total : ℚ
  createdAt : ℕ
  status : String
deriving DecidableEq, Repr

/-- An invoice record as built by `createInvoice`. -/
structure Invoice where
  invoiceId : String
  clientId : String
  estimateId : Option String
  items : List Item
  subtotal : ℚ
  taxRate : ℚ
  taxAmount : ℚ
  total : ℚ
  createdAt : ℕ
  status : String
deriving DecidableEq, Repr

/-- `Object.values(STATUS.ESTIMATE)` from `src/database/schema.js`. -/
def estimateStatuses : List String := ["draft", "sent", "approved", "rejected"]

/-- `Object.values(STATUS.INVOICE)` from `src/database/schema.js`. -/
def invoiceStatuses : List String := ["draft", "sent", "paid"]

/-! ### Object-store primitives

An object store with `keyPath` given by `key` is a list of records; the
store is well formed when the key values are pairwise distinct. -/

/-- `store.get(k)`: the record whose key is `k`, if any. -/
def findByKey (key : α → String) (k : String) (s : List α) : Option α :=
  s.find? (fun a => key a = k)

/-- `store.put(r)`: overwrite the record whose key equals `r`'s key, or
append `r` if no such record exists. -/
def putByKey (key : α → String) (r : α) (s : List α) : List α :=
  if s.any (fun a => key a = key r) then
    s.map (fun a => if key a = key r then r else a)
  else
    s ++ [r]

/-- The `ConstraintError` thrown by `store.add` on a duplicate key. -/
def constraintError : JsErr := ⟨"ConstraintError", "Key already exists in the object store."⟩

/-- `store.add(r)`: strict insert, throwing `ConstraintError` when a
record with `r`'s key is already present. -/
def addByKey (key : α → String) (r : α) (s : List α) : Except JsErr (List α) :=
  if s.any (fun a => key a = key r) then .error constraintError
  else .ok (s ++ [r])

/-- The whole database: the three object stores of `STORES`. -/
structure DB where
  clients : List Client
  estimates : List Estimate
  invoices : List Invoice
deriving DecidableEq, Repr

/-- A store is well formed when its key values are pairwise distinct
(IndexedDB guarantees this: the `keyPath` field is the primary key). -/
def WFStore (key : α → String) (s : List α) : Prop :=
  (s.map key).Nodup

/-- All three stores are well formed. -/
def WFDB (db : DB) : Prop :=
  WFStore Client.clientId db.clients ∧
  WFStore Estimate.estimateId db.estimates ∧
  WFStore Invoice.invoiceId db.invoices

instance : DecidablePred (WFStore (α := α) key) := fun s =>
  inferInstanceAs (Decidable (s.map key).Nodup)

instance : DecidablePred WFDB := fun db =>
  inferInstanceAs (Decidable (WFStore Client.clientId db.clients ∧
    WFStore Estimate.estimateId db.estimates ∧ WFStore Invoice.invoiceId db.invoices))

/-! ### JavaScript helpers -/

/-- JS truthiness test for an optional string field: `undefined`, `null`
and the empty string are falsy. -/
def jsTruthyStr : Option String → Bool
  | none => false
  | some s => !s.isEmpty

/-- `a || b` for an optional string: the default `b` is taken when the
field is absent or falsy. -/
def jsOrStr (o : Option String) (d : String) : String :=
  if jsTruthyStr o then o.getD d else d

/-- `invoiceData.estimateId || null`. -/
def jsOrNull (o : Option String) : Option String :=
  if jsTruthyStr o then o else none

/-- The `items` field of a create payload, before the
`!data.items || !Array.isArray(data.items)` check: it may be absent,
an array, or a non-array value (whose truthiness is irrelevant here,
since a non-array fails the check either way). -/
inductive ItemsField where
  | missing
  | arrayVal (l : List Item)
  | nonArrayVal (truthy : Bool)
deriving DecidableEq, Repr

/-! ### Client repository (`src/database/clients.js`) -/

/-- Payload of `createClient`; absent fields are `none`. -/
structure ClientPayload where
  name : Option String := none
  phone : Option String := none
  email : Option String := none
  address : Option String := none
deriving Repr

/-- Partial payload of `updateClient`; the JS object may even carry a
`clientId` field, which the merge spreads and the re-pin overrides. -/
structure ClientUpdates where
  clientId : Option String := none
  name : Option String := none
  phone : Option String := none
  email : Option String := none
  address : Option String := none
deriving Repr

/-- `createClient`: builds the record (each field `data.f || ''`) with a
generated id and `store.add`s it. -/
def createClient (d : ClientPayload) (newId : String) (db : DB) :
    Except JsErr (Client × DB) :=
  let client : Client :=
    { clientId := newId
      name := jsOrStr d.name ""
      phone := jsOrStr d.phone ""
      email := jsOrStr d.email ""
      address := jsOrStr d.address "" }
  match addByKey Client.clientId client db.clients with
  | .error e => .error e
  | .ok s => .ok (client, { db with clients := s })

/-- `getClient`: `store.get(clientId)`. -/
def getClient (clientId : String) (db : DB) : Option Client :=
  findByKey Client.clientId clientId db.clients

/-- `updateClient`: not-found check, then the spread
`\x7b ...client, ...updates, clientId \x7d` (the id is re-pinned; clients
carry no `createdAt`), persisted with `store.put`. -/
def updateClient (clientId : String) (updates : ClientUpdates) (db : DB) :
    Except JsErr (Client × DB) :=
  match findByKey Client.clientId clientId db.clients with
  | none => .error ⟨"Error", "Client with ID " ++ clientId ++ " not found"⟩
  | some client =>
    let updatedClient : Client :=
      { clientId := clientId
        name := updates.name.getD client.name
        phone := updates.phone.getD client.phone
        email := updates.email.getD client.email
        address := updates.address.getD client.address }
    .ok (updatedClient, { db with clients := putByKey Client.clientId updatedClient db.clients })

/-- `deleteClient`: `store.delete(clientId)` on the clients store only. -/
def deleteClient (clientId : String) (db : DB) : DB :=
  { db with clients := db.clients.filter (fun c => c.clientId != clientId) }

/-! ### Estimate repository (`src/database/estimates.js`) -/

/-- Payload of `createEstimate`. -/
structure EstimatePayload where
  clientId : Option String := none
  items : ItemsField := .missing
  status : Option String := none
deriving Repr

/-- Partial payload of `updateEstimate`: any record field may appear. -/
structure EstimateUpdates where
  estimateId : Option String := none
  clientId : Option String := none
  items : Option (List Item) := none
  total : Option ℚ := none
  createdAt : Option ℕ := none
  status : Option String := none
deriving Repr

/-- `createEstimate`: validates `clientId` (truthiness) then
`items`/`Array.isArray`, computes `calculateTotal`, and `store.add`s the
record.  No check that the referenced client exists is performed. -/
def createEstimate (d : EstimatePayload) (newId : String) (now : ℕ) (db : DB) :
    Except JsErr (Estimate × DB) :=
  if !jsTruthyStr d.clientId then
    .error ⟨"Error", "clientId is required to create an estimate"⟩
  else
    match d.items with
    | .arrayVal l =>
      let estimate : Estimate :=
        { estimateId := newId
          clientId := d.clientId.getD ""
          items := l
          total := calculateTotal l
          createdAt := now
          status := jsOrStr d.status "draft" }
      match addByKey Estimate.estimateId estimate db.estimates with
      | .error e => .error e
      | .ok s => .ok (estimate, { db with estimates := s })
    | _ => .error ⟨"Error", "items array is required"⟩

/-- `getEstimate`: `store.get(estimateId)`. -/
def getEstimate (estimateId : String) (db : DB) : Option Estimate :=
  findByKey Estimate.estimateId estimateId db.estimates

/-- `updateEstimate`: not-found check, spread merge with `estimateId`
and `createdAt` re-pinned, recomputation of `total` only when the
payload carries `items`, then `store.put`.  The `status` field, when
present, is persisted with no validation. -/
def updateEstimate (estimateId : String) (updates : EstimateUpdates) (db : DB) :
    Except JsErr (Estimate × DB) :=
  match findByKey Estimate.estimateId estimateId db.estimates with
  | none => .error ⟨"Error", "Estimate with ID " ++ estimateId ++ " not found"⟩
  | some estimate =>
    let merged : Estimate :=
      { estimateId := estimateId
        clientId := updates.clientId.getD estimate.clientId
        items := updates.items.getD estimate.items
        total := updates.total.getD estimate.total
        createdAt := estimate.createdAt
        status := updates.status.getD estimate.status }
    let updatedEstimate :=
      match updates.items with
      | some l => { merged with total := calculateTotal l }
      | none => merged
    .ok (updatedEstimate,
      { db with estimates := putByKey Estimate.estimateId updatedEstimate db.estimates })

/-- The invalid-status error thrown by `updateEstimateStatus` and
`updateInvoiceStatus`. -/
def invalidStatusError (s : String) (valids : List String) : JsErr :=
  ⟨"Error", "Invalid status: " ++ s ++ ". Must be one of: " ++ String.intercalate ", " valids⟩

/-- `updateEstimateStatus`: validates against
`Object.values(STATUS.ESTIMATE)` and delegates to `updateEstimate`. -/
def updateEstimateStatus (estimateId newStatus : String) (db : DB) :
    Except JsErr (Estimate × DB) :=
  if newStatus ∈ estimateStatuses then
    updateEstimate estimateId { status := some newStatus } db
  else
    .error (invalidStatusError newStatus estimateStatuses)

/-! ### Invoice repository (`src/database/invoices.js`) -/

/-- Payload of `createInvoice`. -/
structure InvoicePayload where
  clientId : Option String := none
  estimateId : Option String := none
  items : ItemsField := .missing
  status : Option String := none
deriving Repr

/-- Partial payload of `updateInvoice`: any record field may appear. -/
structure InvoiceUpdates where
  invoiceId : Option String := none
  clientId : Option String := none
  estimateId : Option (Option String) := none
  items : Option (List Item) := none
  subtotal : Option ℚ := none
  taxRate : Option ℚ := none
  taxAmount : Option ℚ := none
  total : Option ℚ := none
  createdAt : Option ℕ := none
  status : Option String := none
deriving Repr

/-- `createInvoice`: validates `clientId` then `items`/`Array.isArray`,
computes `calculateInvoiceTotals`, and `store.add`s the record.  No
check that the referenced client exists is performed. -/
def createInvoice (d : InvoicePayload) (newId : String) (now : ℕ) (db : DB) :
    Except JsErr (Invoice × DB) :=
  if !jsTruthyStr d.clientId then
    .error ⟨"Error", "clientId is required to create an invoice"⟩
  else
    match d.items with
    | .arrayVal l =>
      let totals := calculateInvoiceTotals l
      let invoice : Invoice :=
        { invoiceId := newId
          clientId := d.clientId.getD ""
          estimateId := jsOrNull d.estimateId
          items := l
          subtotal := totals.subtotal
          taxRate := totals.taxRate
          taxAmount := totals.taxAmount
          total := totals.total
          createdAt := now
          status := jsOrStr d.status "draft" }
      match addByKey Invoice.invoiceId invoice db.invoices with
      | .error e => .error e
      | .ok s => .ok (invoice, { db with invoices := s })
    | _ => .error ⟨"Error", "items array is required"⟩

/-- `getInvoice`: `store.get(invoiceId)`. -/
def getInvoice (invoiceId : String) (db : DB) : Option Invoice :=
  findByKey Invoice.invoiceId invoiceId db.invoices

/-- `updateInvoice`: not-found check, spread merge with `invoiceId` and
`createdAt` re-pinned, recomputation of the four monetary fields only
when the payload carries `items`, then `store.put`.  The `status`
field, when present, is persisted with no validation. -/
def updateInvoice (invoiceId : String) (updates : InvoiceUpdates) (db : DB) :
    Except JsErr (Invoice × DB) :=
  match findByKey Invoice.invoiceId invoiceId db.invoices with
  | none => .error ⟨"Error", "Invoice with ID " ++ invoiceId ++ " not found"⟩
  | some invoice =>
    let merged : Invoice :=
      { invoiceId := invoiceId
        clientId := updates.clientId.getD invoice.clientId
        estimateId := updates.estimateId.getD invoice.estimateId
        items := updates.items.getD invoice.items
        subtotal := updates.subtotal.getD invoice.subtotal
        taxRate := updates.taxRate.getD invoice.taxRate
        taxAmount := updates.taxAmount.getD invoice.taxAmount
        total := updates.total.getD invoice.total
        createdAt := invoice.createdAt
        status := updates.status.getD invoice.status }
    let updatedInvoice :=
      match updates.items with
      | some l =>
        let totals := calculateInvoiceTotals l
        { merged with
            subtotal := totals.subtotal
            taxRate := totals.taxRate
            taxAmount := totals.taxAmount
            total := totals.total }
      | none => merged
    .ok (updatedInvoice,
      { db with invoices := putByKey Invoice.invoiceId updatedInvoice db.invoices })

/-- `updateInvoiceStatus`: validates against
`Object.values(STATUS.INVOICE)` and delegates to `updateInvoice`. -/
def updateInvoiceStatus (invoiceId newStatus : String) (db : DB) :
    Except JsErr (Invoice × DB) :=
  if newStatus ∈ invoiceStatuses then
    updateInvoice invoiceId { status := some newStatus } db
  else
    .error (invalidStatusError newStatus invoiceStatuses)

/-! ### Sync/backup engine (`src/database/sync.js`) -/

/-- The `data` section of an export bundle. -/
structure DataSection where
  clients : List Client := []
  estimates : List Estimate := []
  invoices : List Invoice := []
deriving DecidableEq, Repr

/-- The `metadata` section of an export bundle. -/
structure ExportMetadata where
  clientCount : ℕ
  estimateCount : ℕ
  invoiceCount : ℕ
deriving DecidableEq, Repr

/-- The object returned by `exportAllData`. -/
structure ExportData where
  version : ℕ
  exportDate : String
  data : DataSection
  metadata : ExportMetadata
deriving DecidableEq, Repr

/-- `exportAllData`: reads all three stores and wraps them with version,
date and counts. -/
def exportAllData (exportDate : String) (db : DB) : ExportData :=
  { version := 1
    exportDate := exportDate
    data := { clients := db.clients, estimates := db.estimates, invoices := db.invoices }
    metadata :=
      { clientCount := db.clients.length
        estimateCount := db.estimates.length
        invoiceCount := db.invoices.length } }

/-- A bundle handed to `importData`: the argument may lack a `data`
field (the `!importData.data` check). -/
structure ImportBundle where
  data : Option DataSection
deriving Repr

/-- View an export bundle as an import argument. -/
def ExportData.asBundle (e : ExportData) : ImportBundle := ⟨some e.data⟩

/-- `\x7b imported, skipped, errors \x7d` tallies for one entity kind. -/
structure Tally where
  imported : ℕ
  skipped : ℕ
  errors : ℕ
deriving DecidableEq, Repr

/-- The per-entity results object of `importData`. -/
structure ImportResults where
  clients : Tally
  estimates : Tally
  invoices : Tally
deriving DecidableEq, Repr

/-- One `for (const record of records) \x7b try ... catch ... \x7d` loop
of `importData`: each record is attempted with `step`; success bumps
`imported`, a thrown `ConstraintError` bumps `skipped`, any other error
bumps `errors`, and the loop always continues with the rest. -/
def importLoop (step : α → List α → Except JsErr (List α)) :
    List α → List α → Tally → List α × Tally
  | [], s, t => (s, t)
  | r :: rs, s, t =>
    match step r s with
    | .ok s1 => importLoop step rs s1 { t with imported := t.imported + 1 }
    | .error e =>
      if e.name = "ConstraintError" then
        importLoop step rs s { t with skipped := t.skipped + 1 }
      else
        importLoop step rs s { t with errors := t.errors + 1 }

/-- `mode === 'merge' ? store.put(record) : store.add(record)`. -/
def importStep (key : α → String) (mode : String) :
    α → List α → Except JsErr (List α) :=
  if mode = "merge" then fun r s => .ok (putByKey key r s)
  else fun r s => addByKey key r s

/-- `clearAllData`: `store.clear()` on all three stores. -/
def clearAllData (_db : DB) : DB := ⟨[], [], []⟩

/-- `importData`: format check, optional erase under `replace` mode,
then the three per-entity import loops. -/
def importData (bundle : Option ImportBundle) (mode : String) (db : DB) :
    Except JsErr (ImportResults × DB) :=
  match bundle with
  | none => .error ⟨"Error", "Invalid import data format"⟩
  | some b =>
    match b.data with
    | none => .error ⟨"Error", "Invalid import data format"⟩
    | some d =>
      let db0 := if mode = "replace" then clearAllData db else db
      let rc := importLoop (importStep Client.clientId mode) d.clients db0.clients ⟨0, 0, 0⟩
      let re := importLoop (importStep Estimate.estimateId mode) d.estimates db0.estimates ⟨0, 0, 0⟩
      let ri := importLoop (importStep Invoice.invoiceId mode) d.invoices db0.invoices ⟨0, 0, 0⟩
      .ok (⟨rc.2, re.2, ri.2⟩, ⟨rc.1, re.1, ri.1⟩)

/-- The transport string produced by `createShareableBackup`.
Modelled from the spec: `JSON.stringify`/`btoa` are platform built-ins,
not repository code; per the spec the shareable-backup encoding is a
reversible text encoding of the export payload ("decode is the exact
inverse"), so the encoded string is modelled as a wrapper that carries
the payload it encodes. -/
structure ShareableBackupString where
  payload : ExportData
deriving DecidableEq, Repr

/-- `createShareableBackup`: `btoa(JSON.stringify(await exportAllData()))`. -/
def createShareableBackup (exportDate : String) (db : DB) : ShareableBackupString :=
  ⟨exportAllData exportDate db⟩

/-- The decode step of `restoreFromShareableBackup`:
`JSON.parse(atob(backupString))`.  Modelled from the spec: the exact
inverse of the encode step. -/
def decodeShareableBackup (s : ShareableBackupString) : Except JsErr ExportData :=
  .ok s.payload

/-- `restoreFromShareableBackup` from `src/database/sync.js:214-222`.
Inside the `try` block, `const importData = JSON.parse(jsonString)`
shadows the imported `importData` function, so the following call
`importData(importData, mode)` applies the parsed plain object as a
function.  In JavaScript this throws
`TypeError: importData is not a function`, which the `catch` re-throws
as a restore error; the store is never touched. -/
def restoreFromShareableBackup (backupString : ShareableBackupString) (_mode : String)
    (_db : DB) : Except JsErr (ImportResults × DB) :=
  match decodeShareableBackup backupString with
  | .error e => .error ⟨"Error", "Failed to restore backup: " ++ e.message⟩
  | .ok _parsed => .error ⟨"Error", "Failed to restore backup: importData is not a function"⟩

/-! ### `generateId` (`src/database/db.js`) -/

/-- `v.toString(16)` for a nibble `v < 16`. -/
def hexDigit (v : ℕ) : Char :=
  if v < 10 then Char.ofNat (48 + v) else Char.ofNat (87 + v)

/-- The template string of `generateId`. -/
def uuidTemplate : String := "xxxxxxxx-xxxx-4xxx-yxxx-xxxxxxxxxxxx"

/-- The `replace(/[xy]/g, ...)` callback applied along the template:
`r i` is the value of `Math.random() * 16 | 0` at the i-th callback
invocation (so `r i < 16`); an `x` becomes `r.toString(16)`, a `y`
becomes `(r & 0x3 | 0x8).toString(16)`, and every other character is
kept. -/
def replaceUuidChars (r : ℕ → ℕ) : List Char → ℕ → List Char
  | [], _ => []
  | c :: cs, i =>
    if c = 'x' then hexDigit (r i) :: replaceUuidChars r cs (i + 1)
    else if c = 'y' then hexDigit (r i % 4 + 8) :: replaceUuidChars r cs (i + 1)
    else c :: replaceUuidChars r cs i

/-- `generateId`, parameterised by the stream of `Math.random() * 16 | 0`
draws. -/
def generateId (r : ℕ → ℕ) : String :=
  ⟨replaceUuidChars r uuidTemplate.toList 0⟩

/-- A character is a lowercase hexadecimal digit. -/
def isHexChar (c : Char) : Bool :=
  (48 ≤ c.toNat && c.toNat ≤ 57) || (97 ≤ c.toNat && c.toNat ≤ 102)

/-- `putByKey` applied along a whole bundle, the store state reached by
the merge-mode import loop. -/
def putAll (key : α → String) (l s : List α) : List α :=
  l.foldl (fun acc r => putByKey key r acc) s

/-! ### Helper lemmas about the store primitives -/
theorem find?_map_put_of_any (key : α → String) (r : α) (s : List α)
    (h : s.any (fun a => key a = key r) = true) :
    (s.map (fun a => if key a = key r then r else a)).find?
      (fun a => key a = key r) = some r := by
  induction s with
  | nil => simp at h
  | cons a as ih =>
    by_cases ha : key a = key r
    · simp [ha]
    · simp only [List.any_cons, Bool.or_eq_true, decide_eq_true_eq] at h
      rcases h with h | h
      · exact absurd h ha
      · have h' : as.any (fun a => key a = key r) = true := h
        simpa [ha] using ih h'

theorem find?_append_single_of_not_any (key : α → String) (r : α) (s : List α)
    (h : s.any (fun a => key a = key r) = false) :
    (s ++ [r]).find? (fun a => key a = key r) = some r := by
  rw [List.find?_append]
  have hnone : s.find? (fun a => key a = key r) = none := by
    rw [List.find?_eq_none]
    intro x hx
    simp only [decide_eq_true_eq]
    intro hk
    have : s.any (fun a => key a = key r) = true :=
      List.any_eq_true.mpr ⟨x, hx, by simp [hk]⟩
    simp [this] at h
  simp [hnone]

theorem findByKey_putByKey_self (key : α → String) (r : α) (s : List α) :
    findByKey key (key r) (putByKey key r s) = some r := by
  unfold findByKey putByKey
  by_cases h : s.any (fun a => key a = key r) = true
  · simpa [h] using find?_map_put_of_any key r s h
  · have h' : s.any (fun a => key a = key r) = false := by
      revert h
      cases s.any (fun a => key a = key r) <;> simp
    simpa [h'] using find?_append_single_of_not_any key r s h'

theorem find?_map_put_ne (key : α → String) (r : α) (k : String) (h : key r ≠ k)
    (s : List α) :
    (s.map (fun a => if key a = key r then r else a)).find? (fun a => key a = k) =
      s.find? (fun a => key a = k) := by
  induction s with
  | nil => rfl
  | cons a as ih =>
    by_cases ha : key a = key r
    · have h2 : key a ≠ k := by rw [ha]; exact h
      rw [List.map_cons, if_pos ha, List.find?_cons_of_neg _ (by simpa using h),
        List.find?_cons_of_neg _ (by simpa using h2)]
      exact ih
    · rw [List.map_cons, if_neg ha]
      by_cases hk : key a = k
      · rw [List.find?_cons_of_pos _ (by simpa using hk),
          List.find?_cons_of_pos _ (by simpa using hk)]
      · rw [List.find?_cons_of_neg _ (by simpa using hk),
          List.find?_cons_of_neg _ (by simpa using hk)]
        exact ih

theorem findByKey_putByKey_ne (key : α → String) (r : α) (s : List α) (k : String)
    (h : key r ≠ k) :
    findByKey key k (putByKey key r s) = findByKey key k s := by
  unfold findByKey putByKey
  by_cases hs : s.any (fun a => key a = key r) = true
  · rw [if_pos hs]
    exact find?_map_put_ne key r k h s
  · rw [if_neg hs, List.find?_append]
    have hr : [r].find? (fun a => key a = k) = none := by simp [h]
    simp [hr]

theorem findByKey_putAll_of_absent (key : α → String) (k : String) (l : List α)
    (h : ∀ a ∈ l, key a ≠ k) :
    ∀ s : List α, findByKey key k (putAll key l s) = findByKey key k s := by
  induction l with
  | nil => intro s; rfl
  | cons a as ih =>
    intro s
    have ha : key a ≠ k := h a (by simp)
    have hrest : ∀ x ∈ as, key x ≠ k := fun x hx => h x (by simp [hx])
    calc findByKey key k (putAll key (a :: as) s)
        = findByKey key k (putAll key as (putByKey key a s)) := rfl
      _ = findByKey key k (putByKey key a s) := ih hrest _
      _ = findByKey key k s := findByKey_putByKey_ne key a s k ha

theorem findByKey_putAll_self (key : α → String) (c : α) (l : List α)
    (hc : c ∈ l) (huniq : ∀ a ∈ l, key a = key c → a = c) :
    ∀ s : List α, findByKey key (key c) (putAll key l s) = some c := by
  induction l with
  | nil => simp at hc
  | cons a as ih =>
    intro s
    by_cases hmem : c ∈ as
    · exact ih hmem (fun x hx hk => huniq x (by simp [hx]) hk) _
    · have hac : a = c := by
        rcases List.mem_cons.mp hc with h | h
        · exact h.symm
        · exact absurd h hmem
      subst hac
      have habsent : ∀ x ∈ as, key x ≠ key a := by
        intro x hx hk
        exact hmem (huniq x (by simp [hx]) hk ▸ hx)
      calc findByKey key (key a) (putAll key (a :: as) s)
          = findByKey key (key a) (putAll key as (putByKey key a s)) := rfl
        _ = findByKey key (key a) (putByKey key a s) :=
            findByKey_putAll_of_absent key (key a) as habsent _
        _ = some a := findByKey_putByKey_self key a s

/-! ### Helper lemmas about the import loop -/

theorem importLoop_put_eq (key : α → String) (l : List α) :
    ∀ (s : List α) (t : Tally),
    importLoop (fun r s => .ok (putByKey key r s)) l s t =
      (putAll key l s, { t with imported := t.imported + l.length }) := by
  induction l with
  | nil => intro s t; simp [importLoop, putAll]
  | cons r rs ih =>
    intro s t
    show importLoop _ rs (putByKey key r s) { t with imported := t.imported + 1 } = _
    rw [ih]
    simp only [Prod.mk.injEq]
    constructor
    · rfl
    · cases t
      simp only [List.length_cons]
      congr 1
      omega

theorem importLoop_add_eq (key : α → String) (l : List α) :
    ∀ (s : List α) (t : Tally), ((s ++ l).map key).Nodup →
    importLoop (addByKey key) l s t =
      (s ++ l, { t with imported := t.imported + l.length }) := by
  induction l with
  | nil => intro s t _; simp [importLoop]
  | cons r rs ih =>
    intro s t h
    have hr : key r ∉ s.map key := by
      intro hmem
      rw [List.map_append] at h
      rcases List.nodup_append.mp h with ⟨-, -, hdisj⟩
      exact hdisj hmem (by simp)
    have hany : s.any (fun a => key a = key r) = false := by
      rw [Bool.eq_false_iff]
      intro hx
      rcases List.any_eq_true.mp hx with ⟨x, hx1, hx2⟩
      simp only [decide_eq_true_eq] at hx2
      exact hr (hx2 ▸ List.mem_map_of_mem key hx1)
    have hstep : addByKey key r s = .ok (s ++ [r]) := by
      unfold addByKey
      rw [if_neg (by simp [hany])]
    have h' : (((s ++ [r]) ++ rs).map key).Nodup := by
      rw [List.append_assoc]
      simpa using h
    show (match addByKey key r s with
      | .ok s1 => importLoop (addByKey key) rs s1 { t with imported := t.imported + 1 }
      | .error e =>
        if e.name = "ConstraintError" then
          importLoop (addByKey key) rs s { t with skipped := t.skipped + 1 }
        else
          importLoop (addByKey key) rs s { t with errors := t.errors + 1 }) = _
    rw [hstep]
    show importLoop (addByKey key) rs (s ++ [r]) { t with imported := t.imported + 1 } = _
    rw [ih _ _ h']
    simp only [Prod.mk.injEq]
    constructor
    · simp
    · cases t
      simp only [List.length_cons]
      congr 1
      omega

theorem importLoop_count (step : α → List α → Except JsErr (List α)) (l : List α) :
    ∀ (s : List α) (t : Tally),
    (importLoop step l s t).2.imported + (importLoop step l s t).2.skipped +
        (importLoop step l s t).2.errors =
      t.imported + t.skipped + t.errors + l.length := by
  induction l with
  | nil => intro s t; simp [importLoop]
  | cons r rs ih =>
    intro s t
    rcases hstep : step r s with e | s1
    · simp only [importLoop, hstep]
      by_cases he : e.name = "ConstraintError"
      · rw [if_pos he, ih]
        simp only [List.length_cons]
        omega
      · rw [if_neg he, ih]
        simp only [List.length_cons]
        omega
    · simp only [importLoop, hstep]
      rw [ih]
      simp only [List.length_cons]
      omega

/-! ### Helper lemma about two-decimal rounding -/

theorem round2_add_round2_near (a b : ℚ) :
    |round2 a + round2 b - round2 (a + b)| ≤ 1/100 := by
  unfold round2 jsRound
  have hA1 : ((⌊a * 100 + 1/2⌋ : ℤ) : ℚ) ≤ a * 100 + 1/2 := Int.floor_le _
  have hA2 : a * 100 + 1/2 < (⌊a * 100 + 1/2⌋ : ℤ) + 1 := Int.lt_floor_add_one _
  have hB1 : ((⌊b * 100 + 1/2⌋ : ℤ) : ℚ) ≤ b * 100 + 1/2 := Int.floor_le _
  have hB2 : b * 100 + 1/2 < (⌊b * 100 + 1/2⌋ : ℤ) + 1 := Int.lt_floor_add_one _
  have hC1 : ((⌊(a + b) * 100 + 1/2⌋ : ℤ) : ℚ) ≤ (a + b) * 100 + 1/2 := Int.floor_le _
  have hC2 : (a + b) * 100 + 1/2 < (⌊(a + b) * 100 + 1/2⌋ : ℤ) + 1 := Int.lt_floor_add_one _
  set A := ⌊a * 100 + 1/2⌋
  set B := ⌊b * 100 + 1/2⌋
  set C := ⌊(a + b) * 100 + 1/2⌋
  have hlt : ((A + B - C : ℤ) : ℚ) < 3/2 := by push_cast; linarith
  have hgt : (-(3/2) : ℚ) < ((A + B - C : ℤ) : ℚ) := by push_cast; linarith
  have hle : A + B - C ≤ 1 := by
    have h2 : ((A + B - C : ℤ) : ℚ) < 2 := lt_trans hlt (by norm_num)
    have h2' : (A + B - C : ℤ) < 2 := by exact_mod_cast h2
    omega
  have hge : -1 ≤ A + B - C := by
    have h2 : (-2 : ℚ) < ((A + B - C : ℤ) : ℚ) := lt_trans (by norm_num) hgt
    have h2' : (-2 : ℤ) < A + B - C := by exact_mod_cast h2
    omega
  have habs : |((A + B - C : ℤ) : ℚ)| ≤ 1 := by
    rw [abs_le]
    constructor
    · exact_mod_cast hge
    · exact_mod_cast hle
  have heq : (A : ℚ)/100 + (B : ℚ)/100 - (C : ℚ)/100 = ((A + B - C : ℤ) : ℚ)/100 := by
    push_cast
    ring
  rw [heq, abs_div, abs_of_pos (by norm_num : (0:ℚ) < 100)]
  linarith

/-! ### Characterisation of the update operations -/

theorem findByKey_putByKey_self' (key : α → String) (r : α) (s : List α) (k : String)
    (hk : key r = k) : findByKey key k (putByKey key r s) = some r :=
  hk ▸ findByKey_putByKey_self key r s

theorem updateEstimate_ok (id : String) (u : EstimateUpdates) (db : DB) (e : Estimate)
    (h : findByKey Estimate.estimateId id db.estimates = some e) :
    ∃ e' db', updateEstimate id u db = .ok (e', db') ∧
      db' = { db with estimates := putByKey Estimate.estimateId e' db.estimates } ∧
      getEstimate id db' = some e' ∧
      e'.estimateId = id ∧ e'.createdAt = e.createdAt ∧
      e'.status = u.status.getD e.status ∧
      e'.items = u.items.getD e.items ∧
      (∀ l, u.items = some l → e'.total = calculateTotal l) := by
  cases hu : u.items with
  | none =>
    simp only [updateEstimate, h, hu]
    exact ⟨_, _, rfl, rfl,
      by exact findByKey_putByKey_self' Estimate.estimateId _ db.estimates id rfl,
      rfl, rfl, rfl, rfl, fun l hl => by cases hl⟩
  | some l0 =>
    simp only [updateEstimate, h, hu]
    exact ⟨_, _, rfl, rfl,
      by exact findByKey_putByKey_self' Estimate.estimateId _ db.estimates id rfl,
      rfl, rfl, rfl, rfl, fun l hl => by cases hl; rfl⟩

theorem updateInvoice_ok (id : String) (u : InvoiceUpdates) (db : DB) (v : Invoice)
    (h : findByKey Invoice.invoiceId id db.invoices = some v) :
    ∃ v' db', updateInvoice id u db = .ok (v', db') ∧
      db' = { db with invoices := putByKey Invoice.invoiceId v' db.invoices } ∧
      getInvoice id db' = some v' ∧
      v'.invoiceId = id ∧ v'.createdAt = v.createdAt ∧
      v'.status = u.status.getD v.status ∧
      v'.items = u.items.getD v.items ∧
      (∀ l, u.items = some l →
        v'.subtotal = (calculateInvoiceTotals l).subtotal ∧
        v'.taxRate = (calculateInvoiceTotals l).taxRate ∧
        v'.taxAmount = (calculateInvoiceTotals l).taxAmount ∧
        v'.total = (calculateInvoiceTotals l).total) := by
  cases hu : u.items with
  | none =>
    simp only [updateInvoice, h, hu]
    exact ⟨_, _, rfl, rfl,
      by exact findByKey_putByKey_self' Invoice.invoiceId _ db.invoices id rfl,
      rfl, rfl, rfl, rfl, fun l hl => by cases hl⟩
  | some l0 =>
    simp only [updateInvoice, h, hu]
    exact ⟨_, _, rfl, rfl,
      by exact findByKey_putByKey_self' Invoice.invoiceId _ db.invoices id rfl,
      rfl, rfl, rfl, rfl, fun l hl => by cases hl; exact ⟨rfl, rfl, rfl, rfl⟩⟩

theorem updateClient_ok (id : String) (u : ClientUpdates) (db : DB) (c : Client)
    (h : findByKey Client.clientId id db.clients = some c) :
    ∃ c' db', updateClient id u db = .ok (c', db') ∧
      getClient id db' = some c' ∧ c'.clientId = id := by
  simp only [updateClient, h]
  exact ⟨_, _, rfl, by exact findByKey_putByKey_self' Client.clientId _ db.clients id rfl, rfl⟩

/-- A sequence of `updateEstimate` calls with the same id, each applied
to the database state left by the previous one (a failed call leaves the
state unchanged, as the thrown error aborts before any write). -/
def applyEstimateUpdates (estimateId : String) (us : List EstimateUpdates) (db : DB) : DB :=
  us.foldl (fun acc u =>
    match updateEstimate estimateId u acc with
    | .ok x => x.2
    | .error _ => acc) db

/-- A sequence of `updateClient` calls with the same id. -/
def applyClientUpdates (clientId : String) (us : List ClientUpdates) (db : DB) : DB :=
  us.foldl (fun acc u =>
    match updateClient clientId u acc with
    | .ok x => x.2
    | .error _ => acc) db

theorem find?_filter_key_ne (key : α → String) (cid : String) (s : List α) (k : String) :
    (s.filter (fun a => key a != cid)).find? (fun a => key a = k) =
      if k = cid then none else s.find? (fun a => key a = k) := by
  induction s with
  | nil => simp
  | cons a as ih =>
    by_cases hac : key a = cid
    · rw [List.filter_cons_of_neg (by simp [hac]), ih]
      by_cases hk : k = cid
      · rw [if_pos hk, if_pos hk]
      · have hak : ¬(key a = k) := fun hh => hk ((hh ▸ hac : k = cid))
        rw [if_neg hk, if_neg hk, List.find?_cons_of_neg _ (by simpa using hak)]
    · rw [List.filter_cons_of_pos (by simp [hac])]
      by_cases hk : key a = k
      · have hkc : ¬(k = cid) := fun hh => hac (hk ▸ hh ▸ rfl)
        rw [List.find?_cons_of_pos _ (by simpa using hk), if_neg hkc,
          List.find?_cons_of_pos _ (by simpa using hk)]
      · rw [List.find?_cons_of_neg _ (by simpa using hk), ih]
        by_cases hc : k = cid
        · rw [if_pos hc, if_pos hc]
        · rw [if_neg hc, if_neg hc, List.find?_cons_of_neg _ (by simpa using hk)]

/-- Estimate record for the claim C7 witness. -/
def wEst7 : Estimate :=
  { estimateId := "e1", clientId := "c1", items := [], total := 0, createdAt := 5,
    status := "draft" }

/-- Database for the claim C7 witness. -/
def wDb7 : DB := { clients := [], estimates := [wEst7], invoices := [] }

/-- Update sequence for the claim C7 witness: the first payload tries to
overwrite the identifier and the creation timestamp. -/
def wUs7 : List EstimateUpdates :=
  [{ estimateId := some "zzz", createdAt := some 99, status := some "sent" },
   { clientId := some "c2" }]

/-! ### Concrete databases used for counterexamples and witnesses -/

/-- A one-estimate database for exercising the estimate repository. -/
def cexEstimate : Estimate :=
  { estimateId := "e1", clientId := "c1", items := [], total := 0, createdAt := 0,
    status := "draft" }

/-- Database holding only `cexEstimate`. -/
def cexDB : DB := { clients := [], estimates := [cexEstimate], invoices := [] }

/-- `cexEstimate` after a generic update writes the out-of-enumeration
status value. -/
def cexEstimateBogus : Estimate := { cexEstimate with status := "bogus" }

/-! ### Claim theorems -/

/-- Claim C8: `deleteClient` removes only the addressed client record:
the estimates and invoices stores are untouched (reads of any estimate
or invoice return exactly what they returned before), the deleted
client is gone, and every other client is unchanged — dangling
references are tolerated, nothing cascades. -/
theorem claim_C8_deleteClient_no_cascade (db : DB) (cid : String) :
    (deleteClient cid db).estimates = db.estimates ∧
    (deleteClient cid db).invoices = db.invoices ∧
    (∀ iid, getInvoice iid (deleteClient cid db) = getInvoice iid db) ∧
    (∀ eid, getEstimate eid (deleteClient cid db) = getEstimate eid db) ∧
    (∀ cid2, getClient cid2 (deleteClient cid db) =
      if cid2 = cid then none else getClient cid2 db) := by
  refine ⟨rfl, rfl, fun iid => rfl, fun eid => rfl, fun cid2 => ?_⟩
  exact find?_filter_key_ne Client.clientId cid db.clients cid2

/-- Claim C2: `restoreFromShareableBackup (createShareableBackup ())`
never succeeds.  The decode step is the exact inverse of the encode
step (second conjunct), but the function then shadows the imported
`importData` function with the parsed object (`const importData =
JSON.parse(jsonString)`) and calls `importData(importData, mode)`, so
every restore throws `Failed to restore backup: importData is not a
function` and nothing is ever applied to the store. -/
theorem claim_C2_restore_shadowed_importData (db : DB) (date mode : String) :
    restoreFromShareableBackup (createShareableBackup date db) mode db =
      .error ⟨"Error", "Failed to restore backup: importData is not a function"⟩ ∧
    decodeShareableBackup (createShareableBackup date db) = .ok (exportAllData date db) :=
  ⟨rfl, rfl⟩

/-- Claim C7: across any sequence of `updateEstimate` calls — whatever
the partial payloads contain, including `estimateId` or `createdAt`
fields — the stored record keeps its identifier and creation timestamp;
likewise a client keeps its identifier across any sequence of
`updateClient` calls (clients carry no creation timestamp). -/
theorem claim_C7_id_createdAt_invariant :
    (∀ (id : String) (us : List EstimateUpdates) (db : DB) (e : Estimate),
      getEstimate id db = some e →
      ∃ e', getEstimate id (applyEstimateUpdates id us db) = some e' ∧
        e'.estimateId = e.estimateId ∧ e'.createdAt = e.createdAt) ∧
    (∀ (id : String) (us : List ClientUpdates) (db : DB) (c : Client),
      getClient id db = some c →
      ∃ c', getClient id (applyClientUpdates id us db) = some c' ∧
        c'.clientId = c.clientId) := by
  constructor
  · intro id us
    induction us with
    | nil => intro db e h; exact ⟨e, h, rfl, rfl⟩
    | cons u us ih =>
      intro db e h
      have he_id : e.estimateId = id := by
        have hfs := List.find?_some h
        simpa using hfs
      obtain ⟨e1, db1, hupd, -, hfind1, hid1, hts1, -, -, -⟩ :=
        updateEstimate_ok id u db e h
      have happ : applyEstimateUpdates id (u :: us) db = applyEstimateUpdates id us db1 := by
        unfold applyEstimateUpdates
        simp only [List.foldl_cons, hupd]
      obtain ⟨e2, hfind2, hid2, hts2⟩ := ih db1 e1 hfind1
      refine ⟨e2, by rw [happ]; exact hfind2, ?_, ?_⟩
      · rw [hid2, hid1, he_id]
      · rw [hts2, hts1]
  · intro id us
    induction us with
    | nil => intro db c h; exact ⟨c, h, rfl⟩
    | cons u us ih =>
      intro db c h
      have hc_id : c.clientId = id := by
        have hfs := List.find?_some h
        simpa using hfs
      obtain ⟨c1, db1, hupd, hfind1, hid1⟩ := updateClient_ok id u db c h
      have happ : applyClientUpdates id (u :: us) db = applyClientUpdates id us db1 := by
        unfold applyClientUpdates
        simp only [List.foldl_cons, hupd]
      obtain ⟨c2, hfind2, hid2⟩ := ih db1 c1 hfind1
      refine ⟨c2, by rw [happ]; exact hfind2, ?_⟩
      rw [hid2, hid1, hc_id]

/-- Witness for claim C7: a stored estimate with `createdAt = 5`
survives a two-update sequence whose first payload tries to overwrite
both `estimateId` and `createdAt`. -/
theorem claim_C7_witness :
    getEstimate "e1" wDb7 = some wEst7 ∧
    (getEstimate "e1" (applyEstimateUpdates "e1" wUs7 wDb7)).map Estimate.estimateId =
      some "e1" ∧
    (getEstimate "e1" (applyEstimateUpdates "e1" wUs7 wDb7)).map Estimate.createdAt =
      some 5 := by
  obtain ⟨e', hfind, hid, hts⟩ :=
    claim_C7_id_createdAt_invariant.1 "e1" wUs7 wDb7 wEst7 rfl
  refine ⟨rfl, ?_, ?_⟩
  · rw [hfind]
    simp [hid, wEst7]
  · rw [hfind]
    simp [hts, wEst7]

/-- Counterexample to claim C1: the generic `updateEstimate` performs no
status validation.  On a store holding a draft estimate, updating with
the out-of-enumeration status value succeeds, and a subsequent get
returns the changed record, not the pre-update one. -/
theorem claim_C1_counterexample :
    updateEstimate "e1" { status := some "bogus" } cexDB =
      .ok (cexEstimateBogus, { cexDB with estimates := [cexEstimateBogus] }) ∧
    getEstimate "e1" { cexDB with estimates := [cexEstimateBogus] } = some cexEstimateBogus ∧
    "bogus" ∉ estimateStatuses ∧
    cexEstimateBogus ≠ cexEstimate := by
  refine ⟨rfl, rfl, by decide, ?_⟩
  intro hcontra
  have hst := congrArg Estimate.status hcontra
  simp [cexEstimateBogus, cexEstimate] at hst

/-- Claim C1 (amended): only the status-changing helpers
(`updateEstimateStatus` / `updateInvoiceStatus`) validate the status
against the fixed enumeration, failing with the invalid-status error
before anything is persisted (the store is untouched on failure); the
generic `updateEstimate` / `updateInvoice` perform no status validation
and persist whatever status string the payload carries. -/
theorem claim_C1_amended :
    (∀ (db : DB) (id s : String), s ∉ estimateStatuses →
      updateEstimateStatus id s db = .error (invalidStatusError s estimateStatuses)) ∧
    (∀ (db : DB) (id s : String), s ∉ invoiceStatuses →
      updateInvoiceStatus id s db = .error (invalidStatusError s invoiceStatuses)) ∧
    (∀ (db : DB) (id s : String) (e : Estimate), getEstimate id db = some e →
      ∃ e' db', updateEstimate id { status := some s } db = .ok (e', db') ∧
        e'.status = s ∧ getEstimate id db' = some e') ∧
    (∀ (db : DB) (id s : String) (v : Invoice), getInvoice id db = some v →
      ∃ v' db', updateInvoice id { status := some s } db = .ok (v', db') ∧
        v'.status = s ∧ getInvoice id db' = some v') := by
  refine ⟨?_, ?_, ?_, ?_⟩
  · intro db id s h
    unfold updateEstimateStatus
    rw [if_neg h]
  · intro db id s h
    unfold updateInvoiceStatus
    rw [if_neg h]
  · intro db id s e h
    obtain ⟨e', db', hupd, -, hfind, -, -, hstat, -, -⟩ :=
      updateEstimate_ok id { status := some s } db e h
    exact ⟨e', db', hupd, hstat, hfind⟩
  · intro db id s v h
    obtain ⟨v', db', hupd, -, hfind, -, -, hstat, -, -⟩ :=
      updateInvoice_ok id { status := some s } db v h
    exact ⟨v', db', hupd, hstat, hfind⟩

/-- Witness for claim C1 (amended): the status helper rejects the
out-of-enumeration value on a concrete store, and a generic update with
an in-enumeration value on the same store succeeds. -/
theorem claim_C1_witness :
    "bogus" ∉ estimateStatuses ∧
    updateEstimateStatus "e1" "bogus" cexDB =
      .error (invalidStatusError "bogus" estimateStatuses) ∧
    getEstimate "e1" cexDB = some cexEstimate ∧
    (updateEstimate "e1" { status := some "sent" } cexDB).toOption.isSome = true := by
  have h1 : "bogus" ∉ estimateStatuses := by decide
  have h2 := claim_C1_amended.1 cexDB "e1" "bogus" h1
  obtain ⟨e', db', hupd, -, -⟩ :=
    claim_C1_amended.2.2.1 cexDB "e1" "sent" cexEstimate rfl
  exact ⟨h1, h2, rfl, by rw [hupd]; rfl⟩

/-- `store.add` succeeds when no stored record carries the new key. -/
theorem addByKey_fresh (key : α → String) (r : α) (s : List α)
    (h : ∀ a ∈ s, key a ≠ key r) : addByKey key r s = .ok (s ++ [r]) := by
  unfold addByKey
  rw [if_neg]
  intro hx
  rcases List.any_eq_true.mp hx with ⟨x, hx1, hx2⟩
  exact h x hx1 (by simpa using hx2)

/-- Item list exhibiting the missing estimate rounding: one unit at
price 0.005. -/
def cexItemsC3 : List Item := [{ description := "Mow", quantity := 1, price := 1/200 }]

/-- Create payload for `cexItemsC3`. -/
def cexPayloadC3 : EstimatePayload := { clientId := some "c1", items := .arrayVal cexItemsC3 }

/-- The estimate record `createEstimate` stores for `cexPayloadC3`. -/
def cexEstimateC3 : Estimate :=
  { estimateId := "e9", clientId := "c1", items := cexItemsC3,
    total := calculateTotal cexItemsC3, createdAt := 0, status := "draft" }

/-- The database state after storing `cexEstimateC3` into an empty store. -/
def cexDbC3 : DB := { clients := [], estimates := [cexEstimateC3], invoices := [] }

/-- Counterexample to claim C3: `calculateTotal` applies no rounding, so
the stored estimate total is the raw sum 0.005, not
`round(sum*100)/100 = 0.01` as the claim asserts. -/
theorem claim_C3_counterexample :
    createEstimate cexPayloadC3 "e9" 0 ⟨[], [], []⟩ = .ok (cexEstimateC3, cexDbC3) ∧
    calculateTotal cexItemsC3 = 1/200 ∧
    round2 (calculateTotal cexItemsC3) = 1/100 ∧
    (1/200 : ℚ) ≠ 1/100 := by
  refine ⟨rfl, ?_, ?_, by norm_num⟩
  · norm_num [calculateTotal, cexItemsC3]
  · norm_num [calculateTotal, cexItemsC3, round2, jsRound]

/-- Claim C3 (amended): the estimate total stored by `createEstimate`,
and recomputed by any `updateEstimate` whose payload carries `items`, is
the plain unrounded sum of quantity times price over the record's own
items (`calculateTotal`); no 2-decimal rounding is applied, and the
stored total always equals a fresh recomputation over the record's
items. -/
theorem claim_C3_amended :
    (∀ (d : EstimatePayload) (id : String) (now : ℕ) (db : DB) (l : List Item)
        (e : Estimate) (db' : DB),
      d.items = .arrayVal l →
      createEstimate d id now db = .ok (e, db') →
      e.items = l ∧ e.total = calculateTotal e.items) ∧
    (∀ (id : String) (u : EstimateUpdates) (db : DB) (l : List Item)
        (e' : Estimate) (db' : DB),
      u.items = some l →
      updateEstimate id u db = .ok (e', db') →
      e'.items = l ∧ e'.total = calculateTotal e'.items) := by
  constructor
  · intro d id now db l e db' hitems hok
    cases hcid : jsTruthyStr d.clientId with
    | false =>
      simp [createEstimate, hcid] at hok
    | true =>
      simp only [createEstimate, hcid, hitems, Bool.not_true, Bool.false_eq_true,
        if_false] at hok
      cases hadd : addByKey Estimate.estimateId
          { estimateId := id, clientId := d.clientId.getD "", items := l,
            total := calculateTotal l, createdAt := now,
            status := jsOrStr d.status "draft" } db.estimates with
      | error e0 =>
        rw [hadd] at hok
        simp at hok
      | ok s2 =>
        rw [hadd] at hok
        simp only [Except.ok.injEq, Prod.mk.injEq] at hok
        obtain ⟨he, -⟩ := hok
        subst he
        exact ⟨rfl, rfl⟩
  · intro id u db l e' db' hu hok
    cases hfind : findByKey Estimate.estimateId id db.estimates with
    | none =>
      simp [updateEstimate, hfind] at hok
    | some e =>
      obtain ⟨e1, db1, hupd, -, -, -, -, -, hitems, htot⟩ :=
        updateEstimate_ok id u db e hfind
      rw [hupd] at hok
      simp only [Except.ok.injEq, Prod.mk.injEq] at hok
      obtain ⟨he, -⟩ := hok
      constructor
      · rw [← he, hitems, hu]
        rfl
      · rw [← he, htot l hu, hitems, hu]
        rfl

/-- Witness for claim C3 (amended): the concrete creation at price
0.005 stores `total = calculateTotal items`, the unrounded sum. -/
theorem claim_C3_witness :
    cexPayloadC3.items = .arrayVal cexItemsC3 ∧
    createEstimate cexPayloadC3 "e9" 0 ⟨[], [], []⟩ = .ok (cexEstimateC3, cexDbC3) ∧
    cexEstimateC3.items = cexItemsC3 ∧
    cexEstimateC3.total = calculateTotal cexEstimateC3.items := by
  have h := claim_C3_amended.1 cexPayloadC3 "e9" 0 ⟨[], [], []⟩ cexItemsC3
    cexEstimateC3 cexDbC3 rfl rfl
  exact ⟨rfl, rfl, h.1, h.2⟩

/-- Item list exhibiting the invoice rounding discrepancies: one unit at
price 0.125 with the fixed 6 percent tax rate. -/
def cexItemsC4 : List Item := [{ description := "Mow", quantity := 1, price := 1/8 }]

/-- Create payload for `cexItemsC4`. -/
def cexPayloadC4 : InvoicePayload := { clientId := some "c1", items := .arrayVal cexItemsC4 }

/-- The invoice record `createInvoice` stores for `cexPayloadC4`. -/
def cexInvoiceC4 : Invoice :=
  { invoiceId := "i1", clientId := "c1", estimateId := none, items := cexItemsC4,
    subtotal := (calculateInvoiceTotals cexItemsC4).subtotal,
    taxRate := (calculateInvoiceTotals cexItemsC4).taxRate,
    taxAmount := (calculateInvoiceTotals cexItemsC4).taxAmount,
    total := (calculateInvoiceTotals cexItemsC4).total,
    createdAt := 0, status := "draft" }

/-- The database state after storing `cexInvoiceC4` into an empty store. -/
def cexDbC4 : DB := { clients := [], estimates := [], invoices := [cexInvoiceC4] }

/-- Counterexample to claim C4: at subtotal 0.125 the stored invoice has
`subtotal = 0.13`, `taxAmount = 0.01` and `total = 0.13` (all computed
from the unrounded sum), so `total ≠ round2(subtotal + taxAmount) =
0.14` and `subtotal + taxAmount ≠ total` — the difference is a full
cent, not floating rounding. -/
theorem claim_C4_counterexample :
    createInvoice cexPayloadC4 "i1" 0 ⟨[], [], []⟩ = .ok (cexInvoiceC4, cexDbC4) ∧
    cexInvoiceC4.subtotal = 13/100 ∧
    cexInvoiceC4.taxAmount = 1/100 ∧
    cexInvoiceC4.total = 13/100 ∧
    round2 (cexInvoiceC4.subtotal + cexInvoiceC4.taxAmount) = 14/100 ∧
    cexInvoiceC4.subtotal + cexInvoiceC4.taxAmount ≠ cexInvoiceC4.total := by
  have hsub : cexInvoiceC4.subtotal = 13/100 := by
    norm_num [cexInvoiceC4, calculateInvoiceTotals, cexItemsC4, round2, jsRound,
      salesTaxRate]
  have htax : cexInvoiceC4.taxAmount = 1/100 := by
    norm_num [cexInvoiceC4, calculateInvoiceTotals, cexItemsC4, round2, jsRound,
      salesTaxRate]
  have htot : cexInvoiceC4.total = 13/100 := by
    norm_num [cexInvoiceC4, calculateInvoiceTotals, cexItemsC4, round2, jsRound,
      salesTaxRate]
  refine ⟨rfl, hsub, htax, htot, ?_, ?_⟩
  · rw [hsub, htax]
    norm_num [round2, jsRound]
  · rw [hsub, htax, htot]
    norm_num

/-- Claim C4 (amended): `calculateInvoiceTotals` computes
`subtotal = round2 S`, `taxAmount = round2 (S * r)` and
`total = round2 (S + S * r)` from the unrounded sum `S` (not from the
stored, rounded subtotal) with the fixed configured rate `r = 0.06`;
`createInvoice` and any `updateInvoice` whose payload carries `items`
store exactly these values, and the stored fields satisfy
`|subtotal + taxAmount - total| ≤ 0.01` (equality can fail by one
cent). -/
theorem claim_C4_amended :
    (∀ l : List Item,
      (calculateInvoiceTotals l).subtotal = round2 (calculateTotal l) ∧
      (calculateInvoiceTotals l).taxRate = salesTaxRate ∧
      (calculateInvoiceTotals l).taxAmount = round2 (calculateTotal l * salesTaxRate) ∧
      (calculateInvoiceTotals l).total =
        round2 (calculateTotal l + calculateTotal l * salesTaxRate) ∧
      |(calculateInvoiceTotals l).subtotal + (calculateInvoiceTotals l).taxAmount -
          (calculateInvoiceTotals l).total| ≤ 1/100) ∧
    (∀ (d : InvoicePayload) (id : String) (now : ℕ) (db : DB) (l : List Item)
        (v : Invoice) (db' : DB),
      d.items = .arrayVal l →
      createInvoice d id now db = .ok (v, db') →
      v.items = l ∧ v.subtotal = (calculateInvoiceTotals l).subtotal ∧
      v.taxRate = (calculateInvoiceTotals l).taxRate ∧
      v.taxAmount = (calculateInvoiceTotals l).taxAmount ∧
      v.total = (calculateInvoiceTotals l).total) ∧
    (∀ (id : String) (u : InvoiceUpdates) (db : DB) (l : List Item)
        (v' : Invoice) (db' : DB),
      u.items = some l →
      updateInvoice id u db = .ok (v', db') →
      v'.items = l ∧ v'.subtotal = (calculateInvoiceTotals l).subtotal ∧
      v'.taxRate = (calculateInvoiceTotals l).taxRate ∧
      v'.taxAmount = (calculateInvoiceTotals l).taxAmount ∧
      v'.total = (calculateInvoiceTotals l).total) := by
  have hrate : (if salesTaxRate = 0 then (0:ℚ) else salesTaxRate) = salesTaxRate := by
    rw [if_neg (by norm_num [salesTaxRate])]
  refine ⟨?_, ?_, ?_⟩
  · intro l
    refine ⟨?_, ?_, ?_, ?_, ?_⟩
    · rfl
    · simp only [calculateInvoiceTotals, hrate]
    · simp only [calculateInvoiceTotals, hrate]
      rfl
    · simp only [calculateInvoiceTotals, hrate]
      rfl
    · simp only [calculateInvoiceTotals, hrate]
      exact round2_add_round2_near (calculateTotal l) (calculateTotal l * salesTaxRate)
  · intro d id now db l v db' hitems hok
    cases hcid : jsTruthyStr d.clientId with
    | false =>
      simp [createInvoice, hcid] at hok
    | true =>
      simp only [createInvoice, hcid, hitems, Bool.not_true, Bool.false_eq_true,
        if_false] at hok
      cases hadd : addByKey Invoice.invoiceId
          { invoiceId := id, clientId := d.clientId.getD "",
            estimateId := jsOrNull d.estimateId, items := l,
            subtotal := (calculateInvoiceTotals l).subtotal,
            taxRate := (calculateInvoiceTotals l).taxRate,
            taxAmount := (calculateInvoiceTotals l).taxAmount,
            total := (calculateInvoiceTotals l).total,
            createdAt := now, status := jsOrStr d.status "draft" } db.invoices with
      | error e0 =>
        rw [hadd] at hok
        simp at hok
      | ok s2 =>
        rw [hadd] at hok
        simp only [Except.ok.injEq, Prod.mk.injEq] at hok
        obtain ⟨hv, -⟩ := hok
        subst hv
        exact ⟨rfl, rfl, rfl, rfl, rfl⟩
  · intro id u db l v' db' hu hok
    cases hfind : findByKey Invoice.invoiceId id db.invoices with
    | none =>
      simp [updateInvoice, hfind] at hok
    | some v =>
      obtain ⟨v1, db1, hupd, -, -, -, -, -, hitems, htotals⟩ :=
        updateInvoice_ok id u db v hfind
      rw [hupd] at hok
      simp only [Except.ok.injEq, Prod.mk.injEq] at hok
      obtain ⟨hv, -⟩ := hok
      obtain ⟨hsub, hr, htax, htot⟩ := htotals l hu
      refine ⟨?_, ?_, ?_, ?_, ?_⟩
      · rw [← hv, hitems, hu]
        rfl
      · rw [← hv, hsub]
      · rw [← hv, hr]
      · rw [← hv, htax]
      · rw [← hv, htot]

/-- Witness for claim C4 (amended): the concrete creation at price
0.125 stores exactly the `calculateInvoiceTotals` fields, and their
one-cent bound holds. -/
theorem claim_C4_witness :
    cexPayloadC4.items = .arrayVal cexItemsC4 ∧
    createInvoice cexPayloadC4 "i1" 0 ⟨[], [], []⟩ = .ok (cexInvoiceC4, cexDbC4) ∧
    cexInvoiceC4.items = cexItemsC4 ∧
    cexInvoiceC4.taxAmount = (calculateInvoiceTotals cexItemsC4).taxAmount ∧
    |cexInvoiceC4.subtotal + cexInvoiceC4.taxAmount - cexInvoiceC4.total| ≤ 1/100 := by
  obtain ⟨hitems, hsub, hr, htax, htot⟩ :=
    claim_C4_amended.2.1 cexPayloadC4 "i1" 0 ⟨[], [], []⟩ cexItemsC4 cexInvoiceC4
      cexDbC4 rfl rfl
  have hb := (claim_C4_amended.1 cexItemsC4).2.2.2.2
  refine ⟨rfl, rfl, hitems, htax, ?_⟩
  rw [hsub, htax, htot]
  exact hb

/-- Claim C9: `createEstimate` and `createInvoice` reject payloads with
a missing (or falsy) owning client id, and payloads whose `items` field
is absent or not array-shaped, throwing the validation error before any
write (the error return carries no new database state); when both are
present the creation succeeds even though the referenced client does
not exist in the clients store — no referential check is made. -/
theorem claim_C9_create_validation :
    (∀ (d : EstimatePayload) (id : String) (now : ℕ) (db : DB),
      jsTruthyStr d.clientId = false →
      createEstimate d id now db = .error ⟨"Error", "clientId is required to create an estimate"⟩) ∧
    (∀ (d : EstimatePayload) (id : String) (now : ℕ) (db : DB),
      jsTruthyStr d.clientId = true → (∀ l, d.items ≠ .arrayVal l) →
      createEstimate d id now db = .error ⟨"Error", "items array is required"⟩) ∧
    (∀ (d : EstimatePayload) (id : String) (now : ℕ) (db : DB) (l : List Item),
      jsTruthyStr d.clientId = true → d.items = .arrayVal l →
      getClient (d.clientId.getD "") db = none →
      (∀ e0 ∈ db.estimates, e0.estimateId ≠ id) →
      ∃ e db', createEstimate d id now db = .ok (e, db')) ∧
    (∀ (d : InvoicePayload) (id : String) (now : ℕ) (db : DB),
      jsTruthyStr d.clientId = false →
      createInvoice d id now db = .error ⟨"Error", "clientId is required to create an invoice"⟩) ∧
    (∀ (d : InvoicePayload) (id : String) (now : ℕ) (db : DB),
      jsTruthyStr d.clientId = true → (∀ l, d.items ≠ .arrayVal l) →
      createInvoice d id now db = .error ⟨"Error", "items array is required"⟩) ∧
    (∀ (d : InvoicePayload) (id : String) (now : ℕ) (db : DB) (l : List Item),
      jsTruthyStr d.clientId = true → d.items = .arrayVal l →
      getClient (d.clientId.getD "") db = none →
      (∀ v0 ∈ db.invoices, v0.invoiceId ≠ id) →
      ∃ v db', createInvoice d id now db = .ok (v, db')) := by
  refine ⟨?_, ?_, ?_, ?_, ?_, ?_⟩
  · intro d id now db h
    unfold createEstimate
    rw [if_pos (by simp [h])]
  · intro d id now db hcid hnl
    unfold createEstimate
    rw [if_neg (by simp [hcid])]
    cases hd : d.items with
    | missing => rfl
    | arrayVal l => exact absurd hd (hnl l)
    | nonArrayVal t => rfl
  · intro d id now db l hcid hitems hclient hfresh
    have hadd := addByKey_fresh Estimate.estimateId
      ({ estimateId := id, clientId := d.clientId.getD "", items := l,
         total := calculateTotal l, createdAt := now,
         status := jsOrStr d.status "draft" } : Estimate) db.estimates
      (fun a ha => by simpa using hfresh a ha)
    simp only [createEstimate, hcid, hitems, Bool.not_true, Bool.false_eq_true, if_false]
    rw [hadd]
    exact ⟨_, _, rfl⟩
  · intro d id now db h
    unfold createInvoice
    rw [if_pos (by simp [h])]
  · intro d id now db hcid hnl
    unfold createInvoice
    rw [if_neg (by simp [hcid])]
    cases hd : d.items with
    | missing => rfl
    | arrayVal l => exact absurd hd (hnl l)
    | nonArrayVal t => rfl
  · intro d id now db l hcid hitems hclient hfresh
    have hadd := addByKey_fresh Invoice.invoiceId
      ({ invoiceId := id, clientId := d.clientId.getD "",
         estimateId := jsOrNull d.estimateId, items := l,
         subtotal := (calculateInvoiceTotals l).subtotal,
         taxRate := (calculateInvoiceTotals l).taxRate,
         taxAmount := (calculateInvoiceTotals l).taxAmount,
         total := (calculateInvoiceTotals l).total,
         createdAt := now, status := jsOrStr d.status "draft" } : Invoice) db.invoices
      (fun a ha => by simpa using hfresh a ha)
    simp only [createInvoice, hcid, hitems, Bool.not_true, Bool.false_eq_true, if_false]
    rw [hadd]
    exact ⟨_, _, rfl⟩

/-- Witness for claim C9: concrete rejections for a missing client id
and a missing items array, and a concrete successful creation whose
referenced client is absent from the store. -/
theorem claim_C9_witness :
    createEstimate { clientId := none, items := .missing } "x" 0 ⟨[], [], []⟩ =
      .error ⟨"Error", "clientId is required to create an estimate"⟩ ∧
    createEstimate { clientId := some "c1", items := .missing } "x" 0 ⟨[], [], []⟩ =
      .error ⟨"Error", "items array is required"⟩ ∧
    getClient "c1" (⟨[], [], []⟩ : DB) = none ∧
    (createEstimate cexPayloadC3 "e9" 0 ⟨[], [], []⟩).toOption.isSome = true := by
  have h1 := claim_C9_create_validation.1
    { clientId := none, items := .missing } "x" 0 ⟨[], [], []⟩ rfl
  have h2 := claim_C9_create_validation.2.1
    { clientId := some "c1", items := .missing } "x" 0 ⟨[], [], []⟩ rfl
    (fun l h => by cases h)
  obtain ⟨e, db', hok⟩ := claim_C9_create_validation.2.2.1 cexPayloadC3 "e9" 0
    ⟨[], [], []⟩ cexItemsC3 rfl rfl rfl (fun e0 he0 => by cases he0)
  exact ⟨h1, h2, rfl, by rw [hok]; rfl⟩

/-- Unfolding of `importData` under `replace` mode: the stores are
erased and each bundle list is strictly inserted from the empty store. -/
theorem importData_replace_eq (d : DataSection) (db : DB) :
    importData (some ⟨some d⟩) "replace" db =
      .ok (⟨(importLoop (addByKey Client.clientId) d.clients [] ⟨0, 0, 0⟩).2,
            (importLoop (addByKey Estimate.estimateId) d.estimates [] ⟨0, 0, 0⟩).2,
            (importLoop (addByKey Invoice.invoiceId) d.invoices [] ⟨0, 0, 0⟩).2⟩,
           ⟨(importLoop (addByKey Client.clientId) d.clients [] ⟨0, 0, 0⟩).1,
            (importLoop (addByKey Estimate.estimateId) d.estimates [] ⟨0, 0, 0⟩).1,
            (importLoop (addByKey Invoice.invoiceId) d.invoices [] ⟨0, 0, 0⟩).1⟩) := rfl

/-- Unfolding of `importData` under `merge` mode: each bundle list is
upserted over the existing store contents. -/
theorem importData_merge_eq (d : DataSection) (db : DB) :
    importData (some ⟨some d⟩) "merge" db =
      .ok (⟨(importLoop (fun r s => .ok (putByKey Client.clientId r s))
              d.clients db.clients ⟨0, 0, 0⟩).2,
            (importLoop (fun r s => .ok (putByKey Estimate.estimateId r s))
              d.estimates db.estimates ⟨0, 0, 0⟩).2,
            (importLoop (fun r s => .ok (putByKey Invoice.invoiceId r s))
              d.invoices db.invoices ⟨0, 0, 0⟩).2⟩,
           ⟨(importLoop (fun r s => .ok (putByKey Client.clientId r s))
              d.clients db.clients ⟨0, 0, 0⟩).1,
            (importLoop (fun r s => .ok (putByKey Estimate.estimateId r s))
              d.estimates db.estimates ⟨0, 0, 0⟩).1,
            (importLoop (fun r s => .ok (putByKey Invoice.invoiceId r s))
              d.invoices db.invoices ⟨0, 0, 0⟩).1⟩) := rfl

/-- Claim C5: on a well-formed store (duplicate-free keys, as IndexedDB
guarantees), `importData (exportAllData (), 'replace')` erases the three
stores and strictly re-inserts every exported record, reproducing
exactly the pre-round-trip dataset, with every record tallied as
imported and none skipped or errored. -/
theorem claim_C5_export_import_replace_roundtrip (db : DB) (date : String)
    (h : WFDB db) :
    importData (some (exportAllData date db).asBundle) "replace" db =
      .ok ({ clients := ⟨db.clients.length, 0, 0⟩,
             estimates := ⟨db.estimates.length, 0, 0⟩,
             invoices := ⟨db.invoices.length, 0, 0⟩ }, db) := by
  obtain ⟨hc, he, hi⟩ := h
  have h1 := importLoop_add_eq Client.clientId db.clients [] ⟨0, 0, 0⟩ (by exact hc)
  have h2 := importLoop_add_eq Estimate.estimateId db.estimates [] ⟨0, 0, 0⟩ (by exact he)
  have h3 := importLoop_add_eq Invoice.invoiceId db.invoices [] ⟨0, 0, 0⟩ (by exact hi)
  show importData (some ⟨some ⟨db.clients, db.estimates, db.invoices⟩⟩) "replace" db = _
  rw [importData_replace_eq, h1, h2, h3]
  simp

/-- Database for the claim C5 witness. -/
def wDb5 : DB :=
  { clients := [{ clientId := "a", name := "N", phone := "", email := "", address := "" }],
    estimates := [], invoices := [] }

/-- Witness for claim C5: the replace round trip on a concrete
one-client store returns the same store with one imported client. -/
theorem claim_C5_witness :
    WFDB wDb5 ∧
    importData (some (exportAllData "2024-01-01" wDb5).asBundle) "replace" wDb5 =
      .ok ({ clients := ⟨1, 0, 0⟩, estimates := ⟨0, 0, 0⟩, invoices := ⟨0, 0, 0⟩ }, wDb5) := by
  have hwf : WFDB wDb5 := by decide
  exact ⟨hwf, claim_C5_export_import_replace_roundtrip wDb5 "2024-01-01" hwf⟩

/-- Claim C6: under `merge` mode every bundle record is upserted with
`store.put` — a record whose identifier already exists in the store
overwrites the stored record and is tallied as imported, with nothing
skipped or errored; under strict insertion a duplicate key throws
`ConstraintError`, which the loop tallies as skipped; any other
per-record error is tallied under `errors`; and in every case the loop
continues through all remaining records (the three tallies always sum
to the bundle length). -/
theorem claim_C6_merge_import :
    (∀ (db : DB) (d : DataSection) (c : Client),
      (∃ c0 ∈ db.clients, c0.clientId = c.clientId) →
      c ∈ d.clients →
      (∀ c' ∈ d.clients, c'.clientId = c.clientId → c' = c) →
      ∃ res db', importData (some ⟨some d⟩) "merge" db = .ok (res, db') ∧
        findByKey Client.clientId c.clientId db'.clients = some c ∧
        res.clients.imported = d.clients.length ∧
        res.clients.skipped = 0 ∧ res.clients.errors = 0) ∧
    (∀ (β : Type) (key : β → String) (r : β) (s rs : List β) (t : Tally),
      (∃ a ∈ s, key a = key r) →
      addByKey key r s = .error constraintError ∧
      constraintError.name = "ConstraintError" ∧
      importLoop (addByKey key) (r :: rs) s t =
        importLoop (addByKey key) rs s { t with skipped := t.skipped + 1 }) ∧
    (∀ (β : Type) (step : β → List β → Except JsErr (List β)) (r : β) (rs : List β)
        (s : List β) (t : Tally) (e : JsErr),
      step r s = .error e → e.name ≠ "ConstraintError" →
      importLoop step (r :: rs) s t =
        importLoop step rs s { t with errors := t.errors + 1 }) ∧
    (∀ (β : Type) (step : β → List β → Except JsErr (List β)) (l : List β)
        (s : List β) (t : Tally),
      (importLoop step l s t).2.imported + (importLoop step l s t).2.skipped +
          (importLoop step l s t).2.errors =
        t.imported + t.skipped + t.errors + l.length) := by
  refine ⟨?_, ?_, ?_, ?_⟩
  · intro db d c hex hmem huniq
    rw [importData_merge_eq]
    rw [importLoop_put_eq Client.clientId d.clients db.clients ⟨0, 0, 0⟩,
      importLoop_put_eq Estimate.estimateId d.estimates db.estimates ⟨0, 0, 0⟩,
      importLoop_put_eq Invoice.invoiceId d.invoices db.invoices ⟨0, 0, 0⟩]
    refine ⟨_, _, rfl, ?_, ?_, rfl, rfl⟩
    · exact findByKey_putAll_self Client.clientId c d.clients hmem huniq db.clients
    · show 0 + d.clients.length = d.clients.length
      omega
  · intro β key r s rs t hex
    have hany : s.any (fun a => key a = key r) = true := by
      rcases hex with ⟨a, ha1, ha2⟩
      exact List.any_eq_true.mpr ⟨a, ha1, by simp [ha2]⟩
    have hadd : addByKey key r s = .error constraintError := by
      unfold addByKey
      rw [if_pos hany]
    refine ⟨hadd, rfl, ?_⟩
    simp [importLoop, hadd, constraintError]
  · intro β step r rs s t e hstep he
    simp only [importLoop, hstep]
    rw [if_neg he]
  · intro β step l s t
    exact importLoop_count step l s t

/-- Store and bundle records for the claim C6 witness: the bundle
client shares the stored client id but carries a different name. -/
def wOld6 : Client := { clientId := "a", name := "Old", phone := "", email := "", address := "" }

/-- The bundle version of the colliding client. -/
def wNew6 : Client := { clientId := "a", name := "New", phone := "", email := "", address := "" }

/-- Database for the claim C6 witness. -/
def wDb6 : DB := { clients := [wOld6], estimates := [], invoices := [] }

/-- Bundle for the claim C6 witness. -/
def wBundle6 : DataSection := { clients := [wNew6], estimates := [], invoices := [] }

/-- Witness for claim C6: merging a bundle whose client id already
exists overwrites the stored record with the bundle version, tallied as
one imported, zero skipped, zero errors. -/
theorem claim_C6_witness :
    wOld6.clientId = wNew6.clientId ∧
    ((importData (some ⟨some wBundle6⟩) "merge" wDb6).toOption.map
      (fun x => findByKey Client.clientId "a" x.2.clients)) = some (some wNew6) ∧
    ((importData (some ⟨some wBundle6⟩) "merge" wDb6).toOption.map
      (fun x => (x.1.clients.imported, x.1.clients.skipped, x.1.clients.errors))) =
      some (1, 0, 0) := by
  obtain ⟨res, db', hok, hfind, him, hsk, herr⟩ :=
    claim_C6_merge_import.1 wDb6 wBundle6 wNew6
      ⟨wOld6, by simp [wDb6], rfl⟩
      (by simp [wBundle6])
      (by intro c' hc' _; simpa [wBundle6] using hc')
  refine ⟨rfl, ?_, ?_⟩
  · rw [hok]
    simp only [Except.toOption, Option.map]
    exact congrArg some hfind
  · rw [hok]
    simp only [Except.toOption, Option.map]
    rw [him, hsk, herr]
    rfl

/-- Claim C10: every string `generateId` returns is a 36-character
UUID-v4-shaped identifier — hyphens at 0-based indices 8, 13, 18 and 23
(positions 9, 14, 19 and 24), the literal '4' at index 14 (the version
nibble), a character from 8/9/a/b at index 19 (the variant nibble,
`r & 0x3 | 0x8`), and lowercase hexadecimal digits everywhere else.
The stream `r` supplies the `Math.random() * 16 | 0` draws, each below
16. -/
theorem claim_C10_generateId_uuid_shape (r : ℕ → ℕ) (h : ∀ i, r i < 16) :
    (generateId r).length = 36 ∧
    (generateId r).toList.getD 8 ' ' = '-' ∧
    (generateId r).toList.getD 13 ' ' = '-' ∧
    (generateId r).toList.getD 18 ' ' = '-' ∧
    (generateId r).toList.getD 23 ' ' = '-' ∧
    (generateId r).toList.getD 14 ' ' = '4' ∧
    (generateId r).toList.getD 19 ' ' ∈ (['8', '9', 'a', 'b'] : List Char) ∧
    (∀ i, i < 36 → i ∉ ([8, 13, 18, 23] : List ℕ) →
      isHexChar ((generateId r).toList.getD i ' ') = true) := by
  have hhex : ∀ v, v < 16 → isHexChar (hexDigit v) = true := by
    intro v hv
    interval_cases v <;> rfl
  have hlist : (generateId r).toList =
      [hexDigit (r 0), hexDigit (r 1), hexDigit (r 2), hexDigit (r 3),
       hexDigit (r 4), hexDigit (r 5), hexDigit (r 6), hexDigit (r 7), '-',
       hexDigit (r 8), hexDigit (r 9), hexDigit (r 10), hexDigit (r 11), '-',
       '4', hexDigit (r 12), hexDigit (r 13), hexDigit (r 14), '-',
       hexDigit (r 15 % 4 + 8), hexDigit (r 16), hexDigit (r 17), hexDigit (r 18), '-',
       hexDigit (r 19), hexDigit (r 20), hexDigit (r 21), hexDigit (r 22),
       hexDigit (r 23), hexDigit (r 24), hexDigit (r 25), hexDigit (r 26),
       hexDigit (r 27), hexDigit (r 28), hexDigit (r 29), hexDigit (r 30)] := rfl
  refine ⟨rfl, ?_, ?_, ?_, ?_, ?_, ?_, ?_⟩
  · rw [hlist]
    rfl
  · rw [hlist]
    rfl
  · rw [hlist]
    rfl
  · rw [hlist]
    rfl
  · rw [hlist]
    rfl
  · rw [hlist]
    show hexDigit (r 15 % 4 + 8) ∈ _
    have h4 : r 15 % 4 = 0 ∨ r 15 % 4 = 1 ∨ r 15 % 4 = 2 ∨ r 15 % 4 = 3 := by omega
    rcases h4 with h0 | h0 | h0 | h0 <;> rw [h0] <;> decide
  · intro i hi hnot
    rw [hlist]
    interval_cases i <;>
      first
        | exact hhex _ (h _)
        | rfl
        | exact absurd (by decide) hnot
        | exact hhex _ (by omega)

/-- Witness for claim C10: the all-zero random stream yields a
36-character id with the fixed version and variant characters. -/
theorem claim_C10_witness :
    (generateId (fun _ => 0)).length = 36 ∧
    (generateId (fun _ => 0)).toList.getD 14 ' ' = '4' ∧
    (generateId (fun _ => 0)).toList.getD 19 ' ' ∈ (['8', '9', 'a', 'b'] : List Char) ∧
    isHexChar ((generateId (fun _ => 0)).toList.getD 0 ' ') = true := by
  obtain ⟨h1, -, -, -, -, h6, h7, h8⟩ :=
    claim_C10_generateId_uuid_shape (fun _ => 0) (fun i => by norm_num)
  exact ⟨h1, h6, h7, h8 0 (by norm_num) (by decide)⟩

end InvoiceApp
